import Mathlib

/-!
Shallow embedding of the LAI AML control-method execution engine
(src/src/exec.c) together with the collaborator fragments the engine
needs (PkgLength decoding, the integer-literal part of the catch-all
expression evaluator, the generic result writer), which live in parts of
the repository that are not under src/ and are therefore modelled from
the specification.

Conventions of the embedding:
* machine integers (uint64_t) are Nat reduced modulo 2 ^ 64 wherever the
  C arithmetic can wrap;
* the operand stack opstack[16] / opstack_ptr is a bottom-first list
  whose length plays the role of opstack_ptr;
* the execution stack stack[16] / stack_ptr is a head-is-top list whose
  length is stack_ptr + 1;
* acpi_panic is modelled as a fatal stop value; the fatal message texts
  mirror the C panic format strings;
* the unbounded dispatcher loop is indexed by explicit fuel.
-/

namespace LaiExec

/-- 2 ^ 64, the wrap-around modulus of AML (uint64_t) integers. -/
def U64 : Nat := 2 ^ 64

/-! AML opcode values used by exec.c.  Modelled from the spec: the
numeric encodings follow the ACPI specification (single-byte opcodes,
extended two-byte forms introduced by 0x5B); the defining header of the
repository is not under src/. -/

/-- Modelled from the spec: ZeroOp. -/
def ZERO_OP : Nat := 0x00
/-- Modelled from the spec: OneOp. -/
def ONE_OP : Nat := 0x01
/-- Modelled from the spec: OnesOp. -/
def ONES_OP : Nat := 0xFF
/-- Modelled from the spec: NoopOp. -/
def NOP_OP : Nat := 0xA3
/-- Modelled from the spec: BytePrefix (one-byte integer literal). -/
def BYTE_PFX : Nat := 0x0A
/-- Modelled from the spec: WordPrefix (two-byte integer literal). -/
def WORD_PFX : Nat := 0x0B
/-- Modelled from the spec: DWordPrefix (four-byte integer literal). -/
def DWORD_PFX : Nat := 0x0C
/-- Modelled from the spec: QWordPrefix (eight-byte integer literal). -/
def QWORD_PFX : Nat := 0x0E
/-- Modelled from the spec: the extended-opcode lead byte 0x5B. -/
def EXTOP_PFX : Nat := 0x5B
/-- Modelled from the spec: PackageOp. -/
def PACKAGE_OP : Nat := 0x12
/-- Modelled from the spec: extended SleepOp (second byte). -/
def SLEEP_OP : Nat := 0x22
/-- Modelled from the spec: ReturnOp. -/
def RETURN_OP : Nat := 0xA4
/-- Modelled from the spec: WhileOp. -/
def WHILE_OP : Nat := 0xA2
/-- Modelled from the spec: ContinueOp. -/
def CONTINUE_OP : Nat := 0x9F
/-- Modelled from the spec: BreakOp. -/
def BREAK_OP : Nat := 0xA5
/-- Modelled from the spec: IfOp. -/
def IF_OP : Nat := 0xA0
/-- Modelled from the spec: ElseOp. -/
def ELSE_OP : Nat := 0xA1
/-- Modelled from the spec: NameOp. -/
def NAME_OP : Nat := 0x08
/-- Modelled from the spec: CreateByteFieldOp. -/
def BYTEFIELD_OP : Nat := 0x8C
/-- Modelled from the spec: CreateWordFieldOp. -/
def WORDFIELD_OP : Nat := 0x8B
/-- Modelled from the spec: CreateDWordFieldOp. -/
def DWORDFIELD_OP : Nat := 0x8A
/-- Modelled from the spec: Arg0Op (Arg1..Arg6 follow consecutively). -/
def ARG0_OP : Nat := 0x68
/-- Modelled from the spec: Arg6Op, the last argument opcode. -/
def ARG6_OP : Nat := 0x6E
/-- Modelled from the spec: Local0Op (Local1..Local7 follow consecutively). -/
def LOCAL0_OP : Nat := 0x60
/-- Modelled from the spec: Local7Op, the last local opcode. -/
def LOCAL7_OP : Nat := 0x67
/-- Modelled from the spec: StoreOp. -/
def STORE_OP : Nat := 0x70
/-- Modelled from the spec: NotOp. -/
def NOT_OP : Nat := 0x80
/-- Modelled from the spec: AddOp. -/
def ADD_OP : Nat := 0x72
/-- Modelled from the spec: SubtractOp. -/
def SUBTRACT_OP : Nat := 0x74
/-- Modelled from the spec: MultiplyOp. -/
def MULTIPLY_OP : Nat := 0x77
/-- Modelled from the spec: AndOp. -/
def AND_OP : Nat := 0x7B
/-- Modelled from the spec: OrOp. -/
def OR_OP : Nat := 0x7D
/-- Modelled from the spec: XorOp. -/
def XOR_OP : Nat := 0x7F
/-- Modelled from the spec: ShiftLeftOp. -/
def SHL_OP : Nat := 0x79
/-- Modelled from the spec: ShiftRightOp. -/
def SHR_OP : Nat := 0x7A
/-- Modelled from the spec: IncrementOp. -/
def INCREMENT_OP : Nat := 0x75
/-- Modelled from the spec: DecrementOp. -/
def DECREMENT_OP : Nat := 0x76
/-- Modelled from the spec: DivideOp. -/
def DIVIDE_OP : Nat := 0x78

/-- AML value (acpi_object_t): a tagged variant.  The execution core
manipulates integers and strings; a zeroed object (type 0) is `uninit`.
Copy and move of these pure values are both the identity. -/
inductive ACPIObject where
  | uninit
  | integer (n : Nat)
  | str (s : String)
  deriving DecidableEq

/-- Reads the `integer` union field of an acpi_object_t.  A zeroed
object reads 0; reading the union field of a string object is not
meaningful in the C source and is modelled as 0. -/
def ACPIObject.integerField : ACPIObject → Nat
  | .integer n => n
  | _ => 0

/-- Reads the `string` union field of an acpi_object_t (empty for
non-string objects). -/
def ACPIObject.stringField : ACPIObject → String
  | .str s => s
  | _ => ""

/-- An execution-stack scope (acpi_stackitem_t): method context, pending
operator, While loop, or If conditional. -/
inductive StackItem where
  | methodCtx
  | op (opcode opstackBase numOperands : Nat) (wantResult : Bool)
  | loop (loopPred loopEnd : Nat)
  | cond (taken : Bool) (condEnd : Nat)
  deriving DecidableEq

/-- The dispatcher state: the AML byte range (method, size = length),
the instruction pointer `i`, the operand stack (bottom first, length =
opstack_ptr), the execution stack (head is top, length = stack_ptr + 1),
and the local and argument slots of the acpi_state_t. -/
structure AcpiState where
  method : List Nat
  i : Nat
  opstack : List ACPIObject
  stack : List StackItem
  locals : List ACPIObject
  args : List ACPIObject
  deriving DecidableEq

/-- Reads method[k].  The C performs an unchecked byte read; past the
end we model the read as 0. -/
def nthByte (m : List Nat) (k : Nat) : Nat := m.getD k 0

/-- acpi_exec_push_opstack_or_die: fatal when the operand stack already
holds 16 values; otherwise reserves a slot (in C the caller fills the
returned zeroed slot; here the filled value is passed in). -/
def pushOpstackOrDie (opstack : List ACPIObject) (v : ACPIObject) :
    Except String (List ACPIObject) :=
  if opstack.length = 16 then .error "operand stack overflow"
  else .ok (opstack ++ [v])

/-- acpi_exec_pop_opstack: removes the top n values of the operand
stack, freeing them. -/
def popOpstack (opstack : List ACPIObject) (n : Nat) : List ACPIObject :=
  opstack.take (opstack.length - n)

/-- acpi_exec_push_stack_or_die: increments stack_ptr and is fatal when
it reaches 16, i.e. when 16 scopes were already present. -/
def pushStackOrDie (stack : List StackItem) (it : StackItem) :
    Except String (List StackItem) :=
  if stack.length = 16 then .error "execution engine stack overflow"
  else .ok (it :: stack)

/-- acpi_exec_reduce: the pure reducer mapping (opcode, operands) to a
result value.  Union integer fields are read as uint64 registers, so
every read is reduced modulo 2 ^ 64; the arithmetic mirrors the C
uint64_t operations (wrapping add/sub/mul, bitwise and/or/xor, 64-bit
logical shifts, bitwise complement).  An opcode outside the table is the
C panic "undefined opcode in acpi_exec_reduce". -/
def acpi_exec_reduce (opcode : Nat) (operands : List ACPIObject) :
    Except String ACPIObject :=
  let a := (operands.getD 0 .uninit).integerField % U64
  let b := (operands.getD 1 .uninit).integerField % U64
  if opcode = STORE_OP then .ok (operands.getD 0 .uninit)
  else if opcode = NOT_OP then .ok (.integer (a ^^^ (U64 - 1)))
  else if opcode = ADD_OP then .ok (.integer ((a + b) % U64))
  else if opcode = SUBTRACT_OP then .ok (.integer ((a + (U64 - b)) % U64))
  else if opcode = MULTIPLY_OP then .ok (.integer ((a * b) % U64))
  else if opcode = AND_OP then .ok (.integer (a &&& b))
  else if opcode = OR_OP then .ok (.integer (a ||| b))
  else if opcode = XOR_OP then .ok (.integer (a ^^^ b))
  else if opcode = SHL_OP then .ok (.integer ((a <<< b) % U64))
  else if opcode = SHR_OP then .ok (.integer (a >>> b))
  else .error "undefined opcode in acpi_exec_reduce"

/-! Host-native 64-bit reference operations, stated the way the spec
words them: two's-complement wrapping arithmetic is integer arithmetic
followed by reduction modulo 2 ^ 64; the bitwise operations act on the
64-bit pattern; shifts are logical 64-bit shifts. -/

/-- Reduction of a mathematical integer to its 64-bit unsigned
(two's-complement) representative. -/
def wrap64 (x : Int) : Nat := (x % (U64 : Int)).toNat

/-- Native wrapping 64-bit addition. -/
def native64Add (a b : Nat) : Nat := wrap64 ((a : Int) + (b : Int))

/-- Native wrapping 64-bit subtraction. -/
def native64Sub (a b : Nat) : Nat := wrap64 ((a : Int) - (b : Int))

/-- Native wrapping 64-bit multiplication. -/
def native64Mul (a b : Nat) : Nat := wrap64 ((a : Int) * (b : Int))

/-- Native 64-bit bitwise and. -/
def native64And (a b : Nat) : Nat := a &&& b

/-- Native 64-bit bitwise or. -/
def native64Or (a b : Nat) : Nat := a ||| b

/-- Native 64-bit bitwise xor. -/
def native64Xor (a b : Nat) : Nat := a ^^^ b

/-- Native 64-bit logical shift left (truncated to 64 bits). -/
def native64Shl (a b : Nat) : Nat := (a <<< b) % U64

/-- Native 64-bit logical shift right. -/
def native64Shr (a b : Nat) : Nat := a >>> b

/-- Native 64-bit bitwise complement (xor with the all-ones pattern). -/
def native64Not (a : Nat) : Nat := a ^^^ (U64 - 1)

/-- Modelled from the spec: acpi_parse_pkgsize, the NS package-length
decoder, which is not under src/.  ACPI PkgLength: bits 7:6 of the lead
byte count the following bytes (0 to 3); with no following bytes the
length is bits 5:0 of the lead byte, otherwise the low nibble of the
lead byte is the least significant part and each following byte supplies
the next 8 bits.  Returns (bytes consumed, decoded length). -/
def acpi_parse_pkgsize (m : List Nat) (k : Nat) : Nat × Nat :=
  let lead := nthByte m k
  let extra := lead / 64
  if extra = 0 then (1, lead % 64)
  else
    let b1 := nthByte m (k + 1)
    let b2 := if 2 ≤ extra then nthByte m (k + 2) else 0
    let b3 := if 3 ≤ extra then nthByte m (k + 3) else 0
    (1 + extra, lead % 16 + b1 * 16 + b2 * 4096 + b3 * 1048576)

/-- Modelled from the spec: acpi_eval_integer, the NS helper that parses
a sized integer literal (Byte/Word/DWord/QWord data), little endian; it
is not under src/.  Returns (bytes consumed, value); a leading byte that
is not an integer literal consumes 0 bytes. -/
def acpi_eval_integer (m : List Nat) (k : Nat) : Nat × Nat :=
  let op := nthByte m k
  if op = BYTE_PFX then (2, nthByte m (k + 1))
  else if op = WORD_PFX then
    (3, nthByte m (k + 1) + nthByte m (k + 2) * 256)
  else if op = DWORD_PFX then
    (5, nthByte m (k + 1) + nthByte m (k + 2) * 256 +
        nthByte m (k + 3) * 65536 + nthByte m (k + 4) * 16777216)
  else if op = QWORD_PFX then
    (9, nthByte m (k + 1) + nthByte m (k + 2) * 256 +
        nthByte m (k + 3) * 65536 + nthByte m (k + 4) * 16777216 +
        nthByte m (k + 5) * 4294967296 + nthByte m (k + 6) * 1099511627776 +
        nthByte m (k + 7) * 281474976710656 + nthByte m (k + 8) * 72057594037927936)
  else (0, 0)

/-- Modelled from the spec: acpi_eval_object, the AUX catch-all
expression evaluator, which is not under src/.  The spec describes it as
evaluating one complete expression at the cursor and advancing past it;
we model the integer-literal fragment the core claims exercise (Zero,
One, Ones and the sized literals).  Expressions outside this fragment
stop the model.  Returns (bytes consumed, resulting value). -/
def acpi_eval_object (m : List Nat) (k : Nat) :
    Except String (Nat × ACPIObject) :=
  let op := nthByte m k
  if op = ZERO_OP then .ok (1, .integer 0)
  else if op = ONE_OP then .ok (1, .integer 1)
  else if op = ONES_OP then .ok (1, .integer (U64 - 1))
  else
    let sv := acpi_eval_integer m k
    if sv.1 = 0 then .error "unmodelled: expression evaluator"
    else .ok (sv.1, .integer sv.2)

/-- Modelled from the spec: acpi_write_object, the generic writer that
stores a reduced result through the target operand encoded at the
cursor; it is not under src/.  We model the Local0..Local7 and
Arg0..Arg6 targets and the null target (a Zero byte); other targets stop
the model.  Returns (bytes consumed, new locals, new args). -/
def acpi_write_object (m : List Nat) (k : Nat) (result : ACPIObject)
    (locals args : List ACPIObject) :
    Except String (Nat × List ACPIObject × List ACPIObject) :=
  let op := nthByte m k
  if op = ZERO_OP then .ok (1, locals, args)
  else if LOCAL0_OP ≤ op ∧ op ≤ LOCAL7_OP then
    .ok (1, locals.set (op - LOCAL0_OP) result, args)
  else if ARG0_OP ≤ op ∧ op ≤ ARG6_OP then
    .ok (1, locals, args.set (op - ARG0_OP) result)
  else .error "unmodelled: write target"

/-- Modelled from the spec: acpi_is_name, the NS test for the lead byte
of a name, which is not under src/.  Per the spec a name begins with a
root or parent step (backslash 0x5C, caret 0x5E), an underscore 0x5F, an
uppercase letter, or a dual/multi name marker (0x2E, 0x2F). -/
def acpi_is_name (c : Nat) : Bool :=
  (0x41 ≤ c && c ≤ 0x5A) || c == 0x5C || c == 0x5E || c == 0x5F ||
    c == 0x2E || c == 0x2F

/-- The search loop shared by the Continue and Break handlers
(src/src/exec.c lines 441-452 and 462-473): peek depths 0, 1, ... until
the first Loop scope; returns its depth, predicate offset and end
offset, or none when the execution stack holds no Loop scope. -/
def findLoop : List StackItem → Option (Nat × Nat × Nat)
  | [] => none
  | .loop p e :: _ => some (0, p, e)
  | _ :: rest =>
    match findLoop rest with
    | some (j, p, e) => some (j + 1, p, e)
    | none => none

/-- The search loop of the Return handler (src/src/exec.c lines
403-413): the depth of the nearest method-context scope, or none. -/
def findMethodCtxDepth : List StackItem → Option Nat
  | [] => none
  | .methodCtx :: _ => some 0
  | _ :: rest => (findMethodCtxDepth rest).map (· + 1)

/-- The outcome of one dispatcher iteration: a fatal stop (acpi_panic),
the next state, or normal termination of acpi_exec_run (empty execution
stack). -/
inductive StepResult where
  | fatal (msg : String)
  | next (s : AcpiState)
  | done (s : AcpiState)
  deriving DecidableEq

/-- The shared tail of the constant-producing opcode cases: push the
value when a result is wanted, and leave the instruction pointer at the
given position. -/
def pushIfWanted (want : Bool) (v : ACPIObject) (s : AcpiState) (tgt : Nat) :
    StepResult :=
  if want then
    match pushOpstackOrDie s.opstack v with
    | .error msg => .fatal msg
    | .ok ops => .next { s with opstack := ops, i := tgt }
  else .next { s with i := tgt }

/-- The integer-literal cases of the general-opcode switch
(src/src/exec.c lines 355-372): parse the sized literal; a zero parse
size is the C panic; push the value when wanted. -/
def doIntLiteral (want : Bool) (s : AcpiState) : StepResult :=
  let sv := acpi_eval_integer s.method s.i
  if sv.1 = 0 then .fatal "failed to parse integer opcode"
  else pushIfWanted want (.integer sv.2) s (s.i + sv.1)

/-- The Return case of the switch (src/src/exec.c lines 396-423):
evaluate the result expression, find the nearest method-context scope
(fatal if none), require an empty operand stack, push the return value
and pop the stack through the method context. -/
def doReturn (s : AcpiState) : StepResult :=
  match acpi_eval_object s.method (s.i + 1) with
  | .error msg => .fatal msg
  | .ok (sz, result) =>
    match findMethodCtxDepth s.stack with
    | none => .fatal "Return() outside of control method()"
    | some j =>
      if s.opstack.length ≠ 0 then .fatal "opstack is not empty before return"
      else
        match pushOpstackOrDie s.opstack result with
        | .error msg => .fatal msg
        | .ok ops =>
          .next { s with i := s.i + 1 + sz, opstack := ops,
                         stack := s.stack.drop (j + 1) }

/-- The While case of the switch (src/src/exec.c lines 425-437): parse
the package length and push a Loop scope whose predicate offset is the
byte after the PkgLength encoding and whose end is PkgLength bytes after
the opcode. -/
def doWhile (s : AcpiState) : StepResult :=
  let cl := acpi_parse_pkgsize s.method (s.i + 1)
  match pushStackOrDie s.stack (.loop (s.i + 1 + cl.1) (s.i + 1 + cl.2)) with
  | .error msg => .fatal msg
  | .ok st => .next { s with i := s.i + 1 + cl.1, stack := st }

/-- The Continue case of the switch (src/src/exec.c lines 439-458):
jump to the nearest Loop scope predicate and pop the scopes above it;
fatal when no Loop scope exists. -/
def doContinue (s : AcpiState) : StepResult :=
  match findLoop s.stack with
  | none => .fatal "Continue() outside of While()"
  | some (j, p, _) => .next { s with i := p, stack := s.stack.drop j }

/-- The Break case of the switch (src/src/exec.c lines 460-479): jump to
the nearest Loop scope end and pop that Loop and the scopes above it;
fatal when no Loop scope exists. -/
def doBreak (s : AcpiState) : StepResult :=
  match findLoop s.stack with
  | none => .fatal "Break() outside of While()"
  | some (j, _, e) => .next { s with i := e, stack := s.stack.drop (j + 1) }

/-- The If case of the switch (src/src/exec.c lines 481-501): parse the
package length, evaluate the predicate, push a Cond scope recording
whether it was taken, and jump to the scope end when it was not. -/
def doIf (s : AcpiState) : StepResult :=
  let cl := acpi_parse_pkgsize s.method (s.i + 1)
  match acpi_eval_object s.method (s.i + 1 + cl.1) with
  | .error msg => .fatal msg
  | .ok (sz, pred) =>
    let taken := pred.integerField ≠ 0
    let condEnd := s.i + 1 + cl.2
    match pushStackOrDie s.stack (.cond taken condEnd) with
    | .error msg => .fatal msg
    | .ok st =>
      .next { s with i := if taken then s.i + 1 + cl.1 + sz else condEnd,
                     stack := st }

/-- The operator cases of the switch — Store/Not with one operand and
Add/Subtract/Multiply/And/Or/Xor/ShiftRight/ShiftLeft with two
(src/src/exec.c lines 555-584): push a pending-operator scope recording
the raw opcode byte, the current operand-stack height and whether a
result is wanted. -/
def doPushOpScope (num : Nat) (want : Bool) (s : AcpiState) : StepResult :=
  match pushStackOrDie s.stack
      (.op (nthByte s.method s.i) s.opstack.length num want) with
  | .error msg => .fatal msg
  | .ok st => .next { s with i := s.i + 1, stack := st }

/-- The default case of the switch (src/src/exec.c lines 594-606):
delegate to the catch-all expression evaluator; push its result onto the
operand stack when wanted, otherwise discard it. -/
def doDefault (want : Bool) (s : AcpiState) : StepResult :=
  match acpi_eval_object s.method s.i with
  | .error msg => .fatal msg
  | .ok (sz, result) =>
    if want then
      match pushOpstackOrDie s.opstack result with
      | .error msg => .fatal msg
      | .ok ops => .next { s with i := s.i + sz, opstack := ops }
    else .next { s with i := s.i + sz }

/-- The second half of the general-opcode switch (src/src/exec.c lines
502-607): the Else and declaration cases, argument and local loads,
operator-scope pushes and the default case. -/
def dispatchTail (opcode : Nat) (want : Bool) (s : AcpiState) : StepResult :=
  if opcode = ELSE_OP then .fatal "Else() outside of If()"
  else if opcode = NAME_OP then .fatal "unmodelled: name declaration"
  else if opcode = BYTEFIELD_OP ∨ opcode = WORDFIELD_OP ∨
      opcode = DWORDFIELD_OP then .fatal "unmodelled: field creation"
  else if ARG0_OP ≤ opcode ∧ opcode ≤ ARG6_OP then
    pushIfWanted want (s.args.getD (opcode - ARG0_OP) .uninit) s (s.i + 1)
  else if LOCAL0_OP ≤ opcode ∧ opcode ≤ LOCAL7_OP then
    pushIfWanted want (s.locals.getD (opcode - LOCAL0_OP) .uninit) s (s.i + 1)
  else if opcode = STORE_OP ∨ opcode = NOT_OP then
    doPushOpScope 1 want s
  else if opcode = ADD_OP ∨ opcode = SUBTRACT_OP ∨ opcode = MULTIPLY_OP ∨
      opcode = AND_OP ∨ opcode = OR_OP ∨ opcode = XOR_OP ∨
      opcode = SHR_OP ∨ opcode = SHL_OP then
    doPushOpScope 2 want s
  else if opcode = INCREMENT_OP ∨ opcode = DECREMENT_OP ∨
      opcode = DIVIDE_OP then .fatal "unmodelled: arithmetic helper"
  else doDefault want s

/-- The general-opcode switch of acpi_exec_run (src/src/exec.c lines
321-607).  The NOP case reproduces the fall-through of the C source into
the ZERO case.  Opcodes the C core delegates to collaborators outside
the modelled fragment (names, packages, sleep, field creation,
increment/decrement/divide) stop the model with an unmodelled marker. -/
def dispatchOpcode (opcode : Nat) (want : Bool) (s : AcpiState) : StepResult :=
  if opcode = NOP_OP then
    pushIfWanted want (.integer 0) s (s.i + 2)
  else if opcode = ZERO_OP then
    pushIfWanted want (.integer 0) s (s.i + 1)
  else if opcode = ONE_OP then
    pushIfWanted want (.integer 1) s (s.i + 1)
  else if opcode = ONES_OP then
    pushIfWanted want (.integer (U64 - 1)) s (s.i + 1)
  else if opcode = BYTE_PFX ∨ opcode = WORD_PFX ∨ opcode = DWORD_PFX ∨
      opcode = QWORD_PFX then
    doIntLiteral want s
  else if opcode = PACKAGE_OP then .fatal "unmodelled: package constructor"
  else if opcode = EXTOP_PFX * 256 + SLEEP_OP then .fatal "unmodelled: sleep"
  else if opcode = RETURN_OP then doReturn s
  else if opcode = WHILE_OP then doWhile s
  else if opcode = CONTINUE_OP then doContinue s
  else if opcode = BREAK_OP then doBreak s
  else if opcode = IF_OP then doIf s
  else dispatchTail opcode want s

/-- The opcode read of the general-opcode switch (src/src/exec.c lines
311-319): a fatal stop when the extended-opcode lead byte is the last
byte of the body, otherwise the one- or two-byte opcode is formed and
dispatched. -/
def execOpcode (want : Bool) (s : AcpiState) : StepResult :=
  if nthByte s.method s.i = EXTOP_PFX ∧ s.i + 1 = s.method.length then
    .fatal "two-byte opcode on method boundary"
  else
    dispatchOpcode
      (if nthByte s.method s.i = EXTOP_PFX then
        EXTOP_PFX * 256 + nthByte s.method (s.i + 1)
      else nthByte s.method s.i) want s

/-- The part of a dispatcher iteration after the scope prologue: the
bounds check on the instruction pointer, name dispatch (outside the
modelled fragment) and the general-opcode switch (src/src/exec.c lines
274-607). -/
def afterPrologue (want : Bool) (s : AcpiState) : StepResult :=
  if s.method.length < s.i then .fatal "execution escaped out of code range"
  else if acpi_is_name (nthByte s.method s.i) then
    .fatal "unmodelled: name dispatch"
  else execOpcode want s

/-- Finalization of a pending-operator scope once all its operands are
on the operand stack (src/src/exec.c lines 197-212): reduce, pop the
operands, push a copy of the result when wanted, write the result
through the target at the cursor, and pop the scope. -/
def finishOpScope (opc base num : Nat) (want : Bool) (s : AcpiState) :
    StepResult :=
  match acpi_exec_reduce opc (s.opstack.drop base) with
  | .error msg => .fatal msg
  | .ok result =>
    let ops1 := popOpstack s.opstack num
    if want then
      match pushOpstackOrDie ops1 result with
      | .error msg => .fatal msg
      | .ok ops2 =>
        match acpi_write_object s.method s.i result s.locals s.args with
        | .error msg => .fatal msg
        | .ok (sz, loc, ar) =>
          .next { s with i := s.i + sz, opstack := ops2, locals := loc,
                         args := ar, stack := s.stack.drop 1 }
    else
      match acpi_write_object s.method s.i result s.locals s.args with
      | .error msg => .fatal msg
      | .ok (sz, loc, ar) =>
        .next { s with i := s.i + sz, opstack := ops1, locals := loc,
                       args := ar, stack := s.stack.drop 1 }

/-- One iteration of the acpi_exec_run dispatcher loop (src/src/exec.c
lines 173-608): the scope-specific prologue on the top execution-stack
scope, then the opcode dispatch; an empty execution stack terminates the
loop. -/
def acpi_exec_step (s : AcpiState) : StepResult :=
  match s.stack.head? with
  | none => .done s
  | some .methodCtx =>
    if s.i = s.method.length then
      if s.opstack.length ≠ 0 then .fatal "opstack is not empty before return"
      else
        match pushOpstackOrDie s.opstack (.integer 0) with
        | .error msg => .fatal msg
        | .ok ops => .next { s with opstack := ops, stack := s.stack.drop 1 }
    else afterPrologue false s
  | some (.op opc base num want) =>
    if s.opstack.length = base + num then finishOpScope opc base num want s
    else afterPrologue true s
  | some (.loop p e) =>
    if s.i = p then
      match acpi_eval_object s.method s.i with
      | .error msg => .fatal msg
      | .ok (sz, pred) =>
        if pred.integerField = 0 then
          .next { s with i := e, stack := s.stack.drop 1 }
        else .next { s with i := s.i + sz }
    else if s.i = e then .next { s with i := p }
    else if e < s.i then .fatal "execution escaped out of While() body"
    else afterPrologue false s
  | some (.cond taken e) =>
    if taken = false then
      if nthByte s.method s.i = ELSE_OP then
        let cl := acpi_parse_pkgsize s.method (s.i + 1)
        .next { s with i := s.i + 1 + cl.1, stack := s.stack.drop 1 }
      else .next { s with stack := s.stack.drop 1 }
    else if s.i = e then
      if s.i < s.method.length ∧ nthByte s.method s.i = ELSE_OP then
        let cl := acpi_parse_pkgsize s.method (s.i + 1)
        .next { s with i := s.i + 1 + cl.2, stack := s.stack.drop 1 }
      else .next { s with stack := s.stack.drop 1 }
    else afterPrologue false s

/-- acpi_exec_run (src/src/exec.c lines 168-611): iterates the
dispatcher until the execution stack is empty.  The C loop is unbounded;
iterations are indexed here by explicit fuel. -/
def acpi_exec_run : Nat → AcpiState → Except String AcpiState
  | 0, _ => .error "out of fuel"
  | fuel + 1, s =>
    match acpi_exec_step s with
    | .fatal msg => .error msg
    | .done s1 => .ok s1
    | .next s1 => acpi_exec_run fuel s1

/-- The supported-OSI table (src/src/exec.c lines 20-34). -/
def supported_osi_strings : List String :=
  ["Windows 2000", "Windows 2001", "Windows 2001 SP1", "Windows 2001.1",
   "Windows 2006", "Windows 2006.1", "Windows 2006 SP1", "Windows 2006 SP2",
   "Windows 2009", "Windows 2012", "Windows 2013", "Windows 2015"]

/-- The emulated OS family string (src/src/exec.c line 17). -/
def acpi_emulated_os : String := "Microsoft Windows NT"

/-- The emulated ACPI revision (src/src/exec.c line 18). -/
def acpi_implemented_version : Nat := 2

/-- The outcome of acpi_exec_method: the return value, the number of
warnings emitted through acpi_warn, and whether the AML dispatcher ran
(the reserved paths answer without executing any AML). -/
structure MethodResult where
  retvalue : ACPIObject
  warnings : Nat
  ranAml : Bool
  deriving DecidableEq

/-- acpi_exec_method (src/src/exec.c lines 618-695): handles the
reserved paths before touching any AML, otherwise pushes the
method-context scope, runs the dispatcher, and requires exactly one
operand-stack value, which becomes retvalue.  `path` is the method
handle path, `arg0` the first argument slot, `body` the AML byte range
of the method. -/
def acpi_exec_method (path : String) (arg0 : ACPIObject) (body : List Nat)
    (fuel : Nat) : Except String MethodResult :=
  if path = "\\._OSI" then
    let osiReturn : Nat :=
      if supported_osi_strings.contains arg0.stringField then 0xFFFFFFFF else 0
    let w : Nat :=
      if osiReturn = 0 ∧ arg0.stringField = "Linux" then 1 else 0
    .ok { retvalue := .integer osiReturn, warnings := w, ranAml := false }
  else if path = "\\._OS_" then
    .ok { retvalue := .str acpi_emulated_os, warnings := 0, ranAml := false }
  else if path = "\\._REV" then
    .ok { retvalue := .integer acpi_implemented_version, warnings := 0,
          ranAml := false }
  else
    let init : AcpiState :=
      { method := body, i := 0, opstack := [], stack := [.methodCtx],
        locals := List.replicate 8 .uninit,
        args := arg0 :: List.replicate 6 .uninit }
    match acpi_exec_run fuel init with
    | .error msg => .error msg
    | .ok final =>
      if final.opstack.length ≠ 1 then
        .error "expected exactly one return value after method invocation"
      else
        .ok { retvalue := final.opstack.getD 0 .uninit, warnings := 0,
              ranAml := true }

/-- Zero-initialized local slots of a call state. -/
def zeroLocals : List ACPIObject := List.replicate 8 .uninit

/-- Zero-initialized argument slots of a call state. -/
def zeroArgs : List ACPIObject := List.replicate 7 .uninit

/-- Whether the top of the execution stack is a Loop scope. -/
def topIsLoop (s : AcpiState) : Bool :=
  match s.stack.head? with
  | some (.loop _ _) => true
  | _ => false

/-- The stack-depth invariant of the spec: at most 16 operand-stack
values (0 ≤ opstack_ptr ≤ 16) and at most 16 execution-stack scopes
(-1 ≤ stack_ptr ≤ 15); the lower bounds are inherent in the list
representation. -/
def boundsOK (s : AcpiState) : Prop :=
  s.opstack.length ≤ 16 ∧ s.stack.length ≤ 16

/-- The AML of If(Zero) \x7b Return(1) \x7d Else \x7b Return(2) \x7d:
IfOp PkgLength=4 ZeroOp ReturnOp OneOp, ElseOp PkgLength=4 ReturnOp
BytePrefix 2. -/
def ifElseBody : List Nat :=
  [0xA0, 0x04, 0x00, 0xA4, 0x01, 0xA1, 0x04, 0xA4, 0x0A, 0x02]

/-- Mid-execution state of ifElseBody right when the Cond scope of the
untaken If is finalized: the instruction pointer is at the ElseOp
(offset 5). -/
def condElseState : AcpiState :=
  ⟨ifElseBody, 5, [], [.cond false 5, .methodCtx], zeroLocals, zeroArgs⟩

/-- A minimal untaken-Cond state with an Else (package length 2) at the
instruction pointer. -/
def condElseWitState : AcpiState :=
  ⟨[0xA1, 0x02, 0x00], 0, [], [.cond false 0, .methodCtx], zeroLocals, zeroArgs⟩

/-- A state about to dispatch a Continue opcode two scopes above a Loop
scope. -/
def contWitState : AcpiState :=
  ⟨[0x9F], 0, [], [.cond true 5, .loop 2 9, .methodCtx], zeroLocals, zeroArgs⟩

/-- A state about to dispatch a Break opcode one scope above a Loop
scope. -/
def brkWitState : AcpiState :=
  ⟨[0xA5], 0, [], [.cond true 5, .loop 2 9, .methodCtx], zeroLocals, zeroArgs⟩

/-- A state about to dispatch a Continue opcode with no Loop scope on
the execution stack. -/
def noLoopState : AcpiState :=
  ⟨[0x9F], 0, [], [.methodCtx], zeroLocals, zeroArgs⟩

/-- A state about to dispatch a Break opcode whose Loop scope is the
current top of the execution stack. -/
def brkCexState : AcpiState :=
  ⟨[0xA5], 0, [], [.loop 2 9, .methodCtx], zeroLocals, zeroArgs⟩

/-- A state about to dispatch a Continue opcode one scope above a Loop
scope. -/
def c8ContState : AcpiState :=
  ⟨[0x9F], 0, [], [.op 0x70 0 1 false, .loop 4 9, .methodCtx], zeroLocals,
    zeroArgs⟩

/-- The state after dispatching the Continue of c8ContState. -/
def c8ContNext : AcpiState :=
  ⟨[0x9F], 4, [], [.loop 4 9, .methodCtx], zeroLocals, zeroArgs⟩

end LaiExec

namespace LaiExec

/-- C1: per the spec, NOP should advance the instruction pointer by one
byte and push nothing.  The C switch falls through from the NOP case
into the ZERO case, so the code advances the pointer by two bytes and,
when a result is wanted, also pushes Integer(0): dispatching the one
NOP byte under a pending operator scope yields i = 2 with Integer(0)
pushed, and under a plain method context yields i = 2. -/
theorem nop_fall_through_bug :
    acpi_exec_step ⟨[0xA3], 0, [], [.op 0x70 0 1 true, .methodCtx],
        zeroLocals, zeroArgs⟩ =
      .next ⟨[0xA3], 2, [.integer 0], [.op 0x70 0 1 true, .methodCtx],
        zeroLocals, zeroArgs⟩ ∧
    acpi_exec_step ⟨[0xA3, 0xA3], 0, [], [.methodCtx], zeroLocals, zeroArgs⟩ =
      .next ⟨[0xA3, 0xA3], 2, [], [.methodCtx], zeroLocals, zeroArgs⟩ := by
  exact ⟨rfl, rfl⟩

/-- C2: executing a zero-argument method whose body is the AML of
If(Zero) with Return(1) and an Else of Return(2) yields retvalue =
Integer(2): the zero predicate routes execution into the Else body. -/
theorem if_zero_else_returns_two :
    acpi_exec_method "\\.TST" .uninit ifElseBody 8 =
      .ok { retvalue := .integer 2, warnings := 0, ranAml := true } := by
  rfl

/-- C3 counterexample: finalizing the untaken Cond scope of ifElseBody
with the ElseOp at offset 5 moves the instruction pointer to 7, the
first byte of the Else body, and not to 10 = 6 + 4, the offset one past
the Else body that the claim predicts: the Else body is entered, not
skipped. -/
theorem cond_else_skip_counterexample :
    acpi_exec_step condElseState =
      .next ⟨ifElseBody, 7, [], [.methodCtx], zeroLocals, zeroArgs⟩ ∧
    (7 : Nat) ≠ 6 + 4 := by
  exact ⟨rfl, by decide⟩

/-- C3 (amended): when the dispatcher finalizes a Cond scope whose taken
flag is false and an Else opcode follows at the current instruction
pointer, it parses the Else package length and sets the instruction
pointer just past the ElseOp byte and its PkgLength encoding — so the
Else body is entered and executed, not skipped — and pops the Cond
scope. -/
theorem cond_not_taken_enters_else (s : AcpiState) (e : Nat)
    (rest : List StackItem) (hstack : s.stack = .cond false e :: rest)
    (helse : nthByte s.method s.i = ELSE_OP) :
    acpi_exec_step s =
      .next { s with i := s.i + 1 + (acpi_parse_pkgsize s.method (s.i + 1)).1,
                     stack := rest } := by
  simp [acpi_exec_step, hstack, helse]

/-- Witness for cond_not_taken_enters_else at a concrete state. -/
theorem cond_not_taken_enters_else_witness :
    acpi_exec_step condElseWitState =
      .next ⟨[0xA1, 0x02, 0x00], 2, [], [.methodCtx], zeroLocals, zeroArgs⟩ := by
  have h := cond_not_taken_enters_else condElseWitState 0 [.methodCtx] rfl rfl
  exact h

lemma wrap64_add_eq (a b : Nat) : wrap64 ((a : Int) + b) = (a + b) % U64 := by
  simp only [wrap64, U64]
  omega

lemma wrap64_sub_eq (a b : Nat) (hb : b < U64) :
    wrap64 ((a : Int) - b) = (a + (U64 - b)) % U64 := by
  simp only [wrap64, U64] at *
  omega

lemma wrap64_mul_eq (a b : Nat) : wrap64 ((a : Int) * b) = a * b % U64 := by
  have h : (a : Int) * b = ((a * b : Nat) : Int) := by push_cast; ring
  rw [h]
  simp only [wrap64, U64]
  omega

/-- C4: the reducer applied to ADD, SUBTRACT, MULTIPLY, AND, OR, XOR,
SHL, SHR (arity 2) and NOT (arity 1) produces an Integer result equal to
the corresponding host-native 64-bit unsigned wrapping arithmetic or
bitwise operation on the integer fields of the operands. -/
theorem reduce_matches_native (a b : Nat) (ha : a < U64) (hb : b < U64) :
    acpi_exec_reduce ADD_OP [.integer a, .integer b] =
      .ok (.integer (native64Add a b)) ∧
    acpi_exec_reduce SUBTRACT_OP [.integer a, .integer b] =
      .ok (.integer (native64Sub a b)) ∧
    acpi_exec_reduce MULTIPLY_OP [.integer a, .integer b] =
      .ok (.integer (native64Mul a b)) ∧
    acpi_exec_reduce AND_OP [.integer a, .integer b] =
      .ok (.integer (native64And a b)) ∧
    acpi_exec_reduce OR_OP [.integer a, .integer b] =
      .ok (.integer (native64Or a b)) ∧
    acpi_exec_reduce XOR_OP [.integer a, .integer b] =
      .ok (.integer (native64Xor a b)) ∧
    acpi_exec_reduce SHL_OP [.integer a, .integer b] =
      .ok (.integer (native64Shl a b)) ∧
    acpi_exec_reduce SHR_OP [.integer a, .integer b] =
      .ok (.integer (native64Shr a b)) ∧
    acpi_exec_reduce NOT_OP [.integer a] =
      .ok (.integer (native64Not a)) := by
  have ha' : a % U64 = a := Nat.mod_eq_of_lt ha
  have hb' : b % U64 = b := Nat.mod_eq_of_lt hb
  refine ⟨?_, ?_, ?_, ?_, ?_, ?_, ?_, ?_, ?_⟩ <;>
    simp [acpi_exec_reduce, ACPIObject.integerField, ha', hb',
      STORE_OP, NOT_OP, ADD_OP, SUBTRACT_OP, MULTIPLY_OP, AND_OP, OR_OP,
      XOR_OP, SHL_OP, SHR_OP,
      native64Add, native64Sub, native64Mul, native64And, native64Or,
      native64Xor, native64Shl, native64Shr, native64Not,
      wrap64_add_eq, wrap64_sub_eq a b hb, wrap64_mul_eq]

/-- Witness for reduce_matches_native at the operands 5 and 3. -/
theorem reduce_matches_native_witness :
    5 < U64 ∧ 3 < U64 ∧
    (acpi_exec_reduce ADD_OP [.integer 5, .integer 3] =
       .ok (.integer (native64Add 5 3)) ∧
     acpi_exec_reduce SUBTRACT_OP [.integer 5, .integer 3] =
       .ok (.integer (native64Sub 5 3)) ∧
     acpi_exec_reduce MULTIPLY_OP [.integer 5, .integer 3] =
       .ok (.integer (native64Mul 5 3)) ∧
     acpi_exec_reduce AND_OP [.integer 5, .integer 3] =
       .ok (.integer (native64And 5 3)) ∧
     acpi_exec_reduce OR_OP [.integer 5, .integer 3] =
       .ok (.integer (native64Or 5 3)) ∧
     acpi_exec_reduce XOR_OP [.integer 5, .integer 3] =
       .ok (.integer (native64Xor 5 3)) ∧
     acpi_exec_reduce SHL_OP [.integer 5, .integer 3] =
       .ok (.integer (native64Shl 5 3)) ∧
     acpi_exec_reduce SHR_OP [.integer 5, .integer 3] =
       .ok (.integer (native64Shr 5 3)) ∧
     acpi_exec_reduce NOT_OP [.integer 5] =
       .ok (.integer (native64Not 5))) :=
  ⟨by decide, by decide, reduce_matches_native 5 3 (by decide) (by decide)⟩

/-- C5: a non-reserved method with an empty AML body succeeds with
retvalue = Integer(0): the method-context scope at end of body performs
the implicit Return(0), the operand stack must be empty there, and
exactly one value is left for method exit. -/
theorem empty_body_returns_zero (path : String) (arg : ACPIObject)
    (h1 : path ≠ "\\._OSI") (h2 : path ≠ "\\._OS_") (h3 : path ≠ "\\._REV") :
    acpi_exec_method path arg [] 3 =
      .ok { retvalue := .integer 0, warnings := 0, ranAml := true } := by
  unfold acpi_exec_method
  rw [if_neg h1, if_neg h2, if_neg h3]
  rfl

/-- Witness for empty_body_returns_zero at a non-reserved path. -/
theorem empty_body_returns_zero_witness :
    acpi_exec_method "\\.TST" .uninit [] 3 =
      .ok { retvalue := .integer 0, warnings := 0, ranAml := true } :=
  empty_body_returns_zero "\\.TST" .uninit (by decide) (by decide) (by decide)

/-- C6: invoking the reserved path for _OSI with a string argument
returns Integer(0xFFFFFFFF) exactly when the argument is
case-sensitively one of the twelve supported OSI strings, and Integer(0)
otherwise; the argument Linux additionally emits exactly one warning
(and, not being in the table, returns Integer(0)); no AML is ever
executed on this path. -/
theorem osi_reserved_path (s : String) (body : List Nat) (fuel : Nat) :
    acpi_exec_method "\\._OSI" (.str s) body fuel =
      .ok { retvalue :=
              .integer (if supported_osi_strings.contains s then 0xFFFFFFFF
                        else 0),
            warnings := if s = "Linux" then 1 else 0,
            ranAml := false } := by
  unfold acpi_exec_method
  rw [if_pos rfl]
  by_cases hc : supported_osi_strings.contains s
  · have hs : s ≠ "Linux" := by
      intro h
      subst h
      revert hc
      decide
    simp [ACPIObject.stringField, hc, hs]
  · by_cases hs : s = "Linux"
    · simp [ACPIObject.stringField, hc, hs]
      decide
    · simp [ACPIObject.stringField, hc, hs]

lemma findLoop_drop_head (st : List StackItem) (j p e : Nat)
    (h : findLoop st = some (j, p, e)) :
    (st.drop j).head? = some (.loop p e) := by
  induction st generalizing j with
  | nil => simp [findLoop] at h
  | cons a rest ih =>
    match a with
    | .loop p1 e1 =>
      simp [findLoop] at h
      obtain ⟨h1, h2, h3⟩ := h
      subst h1; subst h2; subst h3
      simp
    | .methodCtx =>
      simp only [findLoop] at h
      cases hr : findLoop rest with
      | none => rw [hr] at h; simp at h
      | some jpe =>
        obtain ⟨j1, p1, e1⟩ := jpe
        rw [hr] at h
        simp at h
        obtain ⟨h1, h2, h3⟩ := h
        subst h1; subst h2; subst h3
        simpa using ih j1 hr
    | .op o1 b1 n1 w1 =>
      simp only [findLoop] at h
      cases hr : findLoop rest with
      | none => rw [hr] at h; simp at h
      | some jpe =>
        obtain ⟨j1, p1, e1⟩ := jpe
        rw [hr] at h
        simp at h
        obtain ⟨h1, h2, h3⟩ := h
        subst h1; subst h2; subst h3
        simpa using ih j1 hr
    | .cond t1 e1 =>
      simp only [findLoop] at h
      cases hr : findLoop rest with
      | none => rw [hr] at h; simp at h
      | some jpe =>
        obtain ⟨j1, p1, e2⟩ := jpe
        rw [hr] at h
        simp at h
        obtain ⟨h1, h2, h3⟩ := h
        subst h1; subst h2; subst h3
        simpa using ih j1 hr

/-- C7: when the dispatcher reaches a Continue opcode it jumps to the
nearest Loop scope's predicate offset and pops exactly the scopes above
that Loop (which becomes and stays the top); a Break opcode jumps to
that Loop's end offset and pops the Loop together with every scope above
it; with no Loop scope on the execution stack either opcode is fatal. -/
theorem continue_break_dispatch (w : Bool) (s : AcpiState) :
    (nthByte s.method s.i = CONTINUE_OP →
      (∀ j p e, findLoop s.stack = some (j, p, e) →
        execOpcode w s = .next { s with i := p, stack := s.stack.drop j } ∧
          (s.stack.drop j).head? = some (.loop p e)) ∧
      (findLoop s.stack = none →
        execOpcode w s = .fatal "Continue() outside of While()")) ∧
    (nthByte s.method s.i = BREAK_OP →
      (∀ j p e, findLoop s.stack = some (j, p, e) →
        execOpcode w s = .next { s with i := e, stack := s.stack.drop (j + 1) }) ∧
      (findLoop s.stack = none →
        execOpcode w s = .fatal "Break() outside of While()")) := by
  constructor
  · intro hc
    constructor
    · intro j p e hf
      refine ⟨?_, findLoop_drop_head s.stack j p e hf⟩
      simp [execOpcode, dispatchOpcode, doContinue, doBreak, hc, hf, CONTINUE_OP, EXTOP_PFX, NOP_OP, ZERO_OP,
        ONE_OP, ONES_OP, BYTE_PFX, WORD_PFX, DWORD_PFX, QWORD_PFX,
        PACKAGE_OP, SLEEP_OP, RETURN_OP, WHILE_OP]
    · intro hf
      simp [execOpcode, dispatchOpcode, doContinue, doBreak, hc, hf, CONTINUE_OP, EXTOP_PFX, NOP_OP, ZERO_OP,
        ONE_OP, ONES_OP, BYTE_PFX, WORD_PFX, DWORD_PFX, QWORD_PFX,
        PACKAGE_OP, SLEEP_OP, RETURN_OP, WHILE_OP]
  · intro hb
    constructor
    · intro j p e hf
      simp [execOpcode, dispatchOpcode, doContinue, doBreak, hb, hf, BREAK_OP, CONTINUE_OP, EXTOP_PFX, NOP_OP,
        ZERO_OP, ONE_OP, ONES_OP, BYTE_PFX, WORD_PFX, DWORD_PFX, QWORD_PFX,
        PACKAGE_OP, SLEEP_OP, RETURN_OP, WHILE_OP]
    · intro hf
      simp [execOpcode, dispatchOpcode, doContinue, doBreak, hb, hf, BREAK_OP, CONTINUE_OP, EXTOP_PFX, NOP_OP,
        ZERO_OP, ONE_OP, ONES_OP, BYTE_PFX, WORD_PFX, DWORD_PFX, QWORD_PFX,
        PACKAGE_OP, SLEEP_OP, RETURN_OP, WHILE_OP]

/-- Witness for continue_break_dispatch at concrete states: a Continue
two scopes above a Loop, a Break two scopes above a Loop, and a Continue
with no Loop scope at all. -/
theorem continue_break_dispatch_witness :
    execOpcode false contWitState =
      .next ⟨[0x9F], 2, [], [.loop 2 9, .methodCtx], zeroLocals, zeroArgs⟩ ∧
    execOpcode false brkWitState =
      .next ⟨[0xA5], 9, [], [.methodCtx], zeroLocals, zeroArgs⟩ ∧
    execOpcode false noLoopState = .fatal "Continue() outside of While()" := by
  refine ⟨?_, ?_, ?_⟩
  · exact (((continue_break_dispatch false contWitState).1 rfl).1 1 2 9 rfl).1
  · exact ((continue_break_dispatch false brkWitState).2 rfl).1 1 2 9 rfl
  · exact ((continue_break_dispatch false noLoopState).1 rfl).2 rfl

/-- C8 counterexample: dispatching a Break whose nearest Loop scope is
the current top pops that Loop, so the new top of the execution stack is
the method context below it and not a Loop scope, contradicting the
claim that every successful Break leaves a Loop scope on top. -/
theorem break_top_not_loop_counterexample :
    execOpcode false brkCexState =
      .next ⟨[0xA5], 9, [], [.methodCtx], zeroLocals, zeroArgs⟩ ∧
    topIsLoop ⟨[0xA5], 9, [], [.methodCtx], zeroLocals, zeroArgs⟩ = false := by
  exact ⟨rfl, rfl⟩

/-- C8 (amended): after every successful Continue the new top of the
execution stack is the Loop scope it targeted; a successful Break
instead removes that Loop scope and every scope above it, so the new top
(if any) is the scope that was below the Loop. -/
theorem continue_top_is_loop (w : Bool) (s : AcpiState) (j p e : Nat)
    (hf : findLoop s.stack = some (j, p, e)) :
    (nthByte s.method s.i = CONTINUE_OP →
      execOpcode w s = .next { s with i := p, stack := s.stack.drop j } ∧
        topIsLoop { s with i := p, stack := s.stack.drop j } = true) ∧
    (nthByte s.method s.i = BREAK_OP →
      execOpcode w s =
        .next { s with i := e, stack := s.stack.drop (j + 1) }) := by
  constructor
  · intro hc
    constructor
    · simp [execOpcode, dispatchOpcode, doContinue, doBreak, hc, hf, CONTINUE_OP, EXTOP_PFX, NOP_OP, ZERO_OP,
        ONE_OP, ONES_OP, BYTE_PFX, WORD_PFX, DWORD_PFX, QWORD_PFX,
        PACKAGE_OP, SLEEP_OP, RETURN_OP, WHILE_OP]
    · simp [topIsLoop, findLoop_drop_head s.stack j p e hf]
  · intro hb
    simp [execOpcode, dispatchOpcode, doContinue, doBreak, hb, hf, BREAK_OP, CONTINUE_OP, EXTOP_PFX, NOP_OP,
      ZERO_OP, ONE_OP, ONES_OP, BYTE_PFX, WORD_PFX, DWORD_PFX, QWORD_PFX,
      PACKAGE_OP, SLEEP_OP, RETURN_OP, WHILE_OP]

/-- Witness for continue_top_is_loop at a concrete Continue state. -/
theorem continue_top_is_loop_witness :
    execOpcode false c8ContState = .next c8ContNext ∧
      topIsLoop c8ContNext = true := by
  have h := (continue_top_is_loop false c8ContState 1 4 9 rfl).1 rfl
  exact h

lemma pushOpstackOrDie_ok_iff (ops ops1 : List ACPIObject) (v : ACPIObject) :
    pushOpstackOrDie ops v = .ok ops1 ↔
      ops.length ≠ 16 ∧ ops1 = ops ++ [v] := by
  unfold pushOpstackOrDie
  split
  · rename_i h16
    simp [h16]
  · rename_i h16
    simp [h16, eq_comm]

lemma pushStackOrDie_ok_iff (st st1 : List StackItem) (it : StackItem) :
    pushStackOrDie st it = .ok st1 ↔
      st.length ≠ 16 ∧ st1 = it :: st := by
  unfold pushStackOrDie
  split
  · rename_i h16
    simp [h16]
  · rename_i h16
    simp [h16, eq_comm]

lemma bounds_pushIfWanted (w : Bool) (v : ACPIObject) (s s1 : AcpiState)
    (tgt : Nat) (hb : boundsOK s) (h : pushIfWanted w v s tgt = .next s1) :
    boundsOK s1 := by
  obtain ⟨h1, h2⟩ := hb
  unfold pushIfWanted at h
  split at h
  · split at h
    · exact StepResult.noConfusion h
    · rename_i ops hok
      rw [pushOpstackOrDie_ok_iff] at hok
      injection h with h3
      subst h3
      refine ⟨?_, h2⟩
      simp [hok.2]
      omega
  · injection h with h3
    subst h3
    exact ⟨h1, h2⟩

lemma bounds_doIntLiteral (w : Bool) (s s1 : AcpiState) (hb : boundsOK s)
    (h : doIntLiteral w s = .next s1) : boundsOK s1 := by
  simp only [doIntLiteral] at h
  split at h
  · exact StepResult.noConfusion h
  · exact bounds_pushIfWanted _ _ _ _ _ hb h

lemma bounds_doReturn (s s1 : AcpiState) (hb : boundsOK s)
    (h : doReturn s = .next s1) : boundsOK s1 := by
  obtain ⟨h1, h2⟩ := hb
  simp only [doReturn] at h
  repeat' split at h
  all_goals
    first
    | exact StepResult.noConfusion h
    | (injection h with h3
       subst h3
       simp_all [boundsOK, pushOpstackOrDie_ok_iff] <;> omega)

lemma bounds_doWhile (s s1 : AcpiState) (hb : boundsOK s)
    (h : doWhile s = .next s1) : boundsOK s1 := by
  obtain ⟨h1, h2⟩ := hb
  simp only [doWhile] at h
  repeat' split at h
  all_goals
    first
    | exact StepResult.noConfusion h
    | (injection h with h3
       subst h3
       simp_all [boundsOK, pushStackOrDie_ok_iff] <;> omega)

lemma bounds_doContinue (s s1 : AcpiState) (hb : boundsOK s)
    (h : doContinue s = .next s1) : boundsOK s1 := by
  obtain ⟨h1, h2⟩ := hb
  simp only [doContinue] at h
  repeat' split at h
  all_goals
    first
    | exact StepResult.noConfusion h
    | (injection h with h3
       subst h3
       simp_all [boundsOK] <;> omega)

lemma bounds_doBreak (s s1 : AcpiState) (hb : boundsOK s)
    (h : doBreak s = .next s1) : boundsOK s1 := by
  obtain ⟨h1, h2⟩ := hb
  simp only [doBreak] at h
  repeat' split at h
  all_goals
    first
    | exact StepResult.noConfusion h
    | (injection h with h3
       subst h3
       simp_all [boundsOK] <;> omega)

lemma bounds_doIf (s s1 : AcpiState) (hb : boundsOK s)
    (h : doIf s = .next s1) : boundsOK s1 := by
  obtain ⟨h1, h2⟩ := hb
  simp only [doIf] at h
  repeat' split at h
  all_goals
    first
    | exact StepResult.noConfusion h
    | (injection h with h3
       subst h3
       simp_all [boundsOK, pushStackOrDie_ok_iff] <;> omega)

lemma bounds_doPushOpScope (num : Nat) (w : Bool) (s s1 : AcpiState)
    (hb : boundsOK s) (h : doPushOpScope num w s = .next s1) : boundsOK s1 := by
  obtain ⟨h1, h2⟩ := hb
  simp only [doPushOpScope] at h
  repeat' split at h
  all_goals
    first
    | exact StepResult.noConfusion h
    | (injection h with h3
       subst h3
       simp_all [boundsOK, pushStackOrDie_ok_iff] <;> omega)

lemma bounds_doDefault (w : Bool) (s s1 : AcpiState) (hb : boundsOK s)
    (h : doDefault w s = .next s1) : boundsOK s1 := by
  obtain ⟨h1, h2⟩ := hb
  simp only [doDefault] at h
  repeat' split at h
  all_goals
    first
    | exact StepResult.noConfusion h
    | (injection h with h3
       subst h3
       simp_all [boundsOK, pushOpstackOrDie_ok_iff] <;> omega)

lemma bounds_finishOpScope (opc base num : Nat) (w : Bool) (s s1 : AcpiState)
    (hb : boundsOK s) (h : finishOpScope opc base num w s = .next s1) :
    boundsOK s1 := by
  obtain ⟨h1, h2⟩ := hb
  simp only [finishOpScope] at h
  repeat' split at h
  all_goals
    first
    | exact StepResult.noConfusion h
    | (injection h with h3
       subst h3
       simp_all [boundsOK, popOpstack, pushOpstackOrDie_ok_iff] <;> omega)

set_option maxHeartbeats 2000000 in
lemma bounds_dispatchTail (opcode : Nat) (w : Bool) (s s1 : AcpiState)
    (hb : boundsOK s) (h : dispatchTail opcode w s = .next s1) :
    boundsOK s1 := by
  unfold dispatchTail at h
  repeat' split at h
  all_goals
    first
    | exact StepResult.noConfusion h
    | exact bounds_pushIfWanted _ _ _ _ _ hb h
    | exact bounds_doPushOpScope _ _ _ _ hb h
    | exact bounds_doDefault _ _ _ hb h

set_option maxHeartbeats 2000000 in
lemma bounds_dispatchOpcode (opcode : Nat) (w : Bool) (s s1 : AcpiState)
    (hb : boundsOK s) (h : dispatchOpcode opcode w s = .next s1) :
    boundsOK s1 := by
  unfold dispatchOpcode at h
  repeat' split at h
  all_goals
    first
    | exact StepResult.noConfusion h
    | exact bounds_pushIfWanted _ _ _ _ _ hb h
    | exact bounds_doIntLiteral _ _ _ hb h
    | exact bounds_doReturn _ _ hb h
    | exact bounds_doWhile _ _ hb h
    | exact bounds_doContinue _ _ hb h
    | exact bounds_doBreak _ _ hb h
    | exact bounds_doIf _ _ hb h
    | exact bounds_dispatchTail _ _ _ _ hb h

lemma bounds_execOpcode (w : Bool) (s s1 : AcpiState) (hb : boundsOK s)
    (h : execOpcode w s = .next s1) : boundsOK s1 := by
  unfold execOpcode at h
  split at h
  · exact StepResult.noConfusion h
  · exact bounds_dispatchOpcode _ _ _ _ hb h

lemma bounds_afterPrologue (w : Bool) (s s1 : AcpiState) (hb : boundsOK s)
    (h : afterPrologue w s = .next s1) : boundsOK s1 := by
  unfold afterPrologue at h
  split at h
  · exact StepResult.noConfusion h
  · split at h
    · exact StepResult.noConfusion h
    · exact bounds_execOpcode _ _ _ hb h

set_option maxHeartbeats 2000000 in
lemma bounds_step_next (s s1 : AcpiState) (hb : boundsOK s)
    (h : acpi_exec_step s = .next s1) : boundsOK s1 := by
  obtain ⟨h1, h2⟩ := hb
  simp only [acpi_exec_step] at h
  repeat' split at h
  all_goals
    first
    | exact StepResult.noConfusion h
    | exact bounds_afterPrologue _ _ _ ⟨h1, h2⟩ h
    | exact bounds_finishOpScope _ _ _ _ _ _ ⟨h1, h2⟩ h
    | (injection h with h3
       subst h3
       simp_all [boundsOK, popOpstack, pushOpstackOrDie_ok_iff,
         pushStackOrDie_ok_iff] <;> omega)

/-- C9: the stack-depth invariant holds between dispatcher iterations —
if a state satisfies 0 ≤ opstack_ptr ≤ 16 and -1 ≤ stack_ptr ≤ 15 (the
lower bounds are inherent in the list model), the state after one
dispatcher iteration satisfies it again, and an empty execution stack
just terminates the loop without touching the state; moreover a push
onto a full operand stack or a full execution stack is fatal instead of
writing out of bounds. -/
theorem stack_bounds_invariant :
    (∀ s s1, boundsOK s → acpi_exec_step s = .next s1 → boundsOK s1) ∧
    (∀ s, s.stack = [] → acpi_exec_step s = .done s) ∧
    (∀ ops v, ops.length = 16 →
      pushOpstackOrDie ops v = .error "operand stack overflow") ∧
    (∀ st it, st.length = 16 →
      pushStackOrDie st it = .error "execution engine stack overflow") := by
  refine ⟨fun s s1 hb h => bounds_step_next s s1 hb h, ?_, ?_, ?_⟩
  · intro s hs
    simp [acpi_exec_step, hs]
  · intro ops v h16
    simp [pushOpstackOrDie, h16]
  · intro st it h16
    simp [pushStackOrDie, h16]

/-- Witness for stack_bounds_invariant: one concrete dispatcher
iteration of ifElseBody preserves the bounds; the empty execution stack
terminates; pushing onto a full operand or execution stack is fatal. -/
theorem stack_bounds_invariant_witness :
    boundsOK condElseState ∧
    boundsOK ⟨ifElseBody, 7, [], [.methodCtx], zeroLocals, zeroArgs⟩ ∧
    acpi_exec_step ⟨ifElseBody, 10, [.integer 2], [], zeroLocals, zeroArgs⟩ =
      .done ⟨ifElseBody, 10, [.integer 2], [], zeroLocals, zeroArgs⟩ ∧
    pushOpstackOrDie (List.replicate 16 .uninit) .uninit =
      .error "operand stack overflow" ∧
    pushStackOrDie (List.replicate 16 .methodCtx) .methodCtx =
      .error "execution engine stack overflow" := by
  obtain ⟨hnext, hdone, hops, hstk⟩ := stack_bounds_invariant
  have hpre : boundsOK condElseState := by constructor <;> decide
  refine ⟨hpre, ?_, hdone _ rfl, hops _ _ (by decide), hstk _ _ (by decide)⟩
  exact hnext condElseState
    ⟨ifElseBody, 7, [], [.methodCtx], zeroLocals, zeroArgs⟩ hpre rfl

/-- C10: when the byte at the instruction pointer is the extended-opcode
lead 0x5B and it is the last byte of the method body, the dispatcher
stops fatally instead of reading a second opcode byte past the end of
the AML range. -/
theorem extop_on_boundary_fatal (s : AcpiState) (rest : List StackItem)
    (hstack : s.stack = .methodCtx :: rest)
    (hbyte : nthByte s.method s.i = EXTOP_PFX)
    (hsize : s.i + 1 = s.method.length) :
    acpi_exec_step s = .fatal "two-byte opcode on method boundary" := by
  have hne : ¬ s.i = s.method.length := by omega
  have hlt : ¬ s.method.length < s.i := by omega
  simp [acpi_exec_step, afterPrologue, execOpcode, hstack, hne, hlt, hbyte,
    hsize, acpi_is_name, EXTOP_PFX]

/-- Witness for extop_on_boundary_fatal: a one-byte method body holding
only the extended-opcode lead byte. -/
theorem extop_on_boundary_fatal_witness :
    acpi_exec_step ⟨[0x5B], 0, [], [.methodCtx], zeroLocals, zeroArgs⟩ =
      .fatal "two-byte opcode on method boundary" :=
  extop_on_boundary_fatal
    ⟨[0x5B], 0, [], [.methodCtx], zeroLocals, zeroArgs⟩ [] rfl rfl rfl

end LaiExec
